import Mathlib

/-!
Verification of the lineup-optimization service in `src/app.py`.

The development shallowly embeds the three pure computations of the service:

* the greedy lineup optimizer (`optimize_lineup`, app.py lines 121-169),
  including the stable descending sort performed by `players.sort(key=...,
  reverse=True)`;
* the player projection resolver (app.py lines 55-69), the layered
  weekly-stats / season-average / zero fallback;
* the AI start-sit reply line scanner (app.py lines 302-324).

Python floats are embedded as `Int` (the optimizer only compares, adds and
copies them); Python dictionaries become association lists; attribute or key
lookups that may be absent become `Option`; the bare `except` around the stats
lookup is modelled by an explicit `stats_ok` flag saying whether the `try`
block succeeds. String primitives used by the reply scanner (`split`,
`strip`, `startswith`, `upper`, `in`, `replace`, `int`) are given structural
definitions over `String.data` so that all computations reduce.
-/

namespace AiAtl

/-- A roster player as assembled by `optimize_lineup` (app.py lines 109-119):
the fields of the per-player dictionary, with `projectedPoints` already
resolved. -/
structure Player where
  name : String
  position : String
  proTeam : String
  lineupSlot : String
  eligibleSlots : List String
  projectedPoints : Int
  injured : Bool
  injuryStatus : Option String
  playerId : Option Int
deriving DecidableEq

/-- A player together with the `recommendedSlot` key the optimizer writes into
its dictionary (app.py lines 142, 148, 155, 159, 162). -/
structure Assigned where
  player : Player
  recommendedSlot : String
deriving DecidableEq

/-- The fixed lineup requirement dictionary `lineup_slots`
(app.py lines 125-133). -/
def lineup_slots : List (String × Nat) :=
  [("QB", 1), ("RB", 2), ("WR", 2), ("TE", 1), ("RB/WR/TE", 1), ("D/ST", 1), ("K", 1)]

/-- Dictionary lookup `lineup_slots[s]`; `none` models `s not in lineup_slots`. -/
def slotRequirement (s : String) : Option Nat :=
  List.lookup s lineup_slots

/-- The test `player['injured'] and player['injuryStatus'] in ['OUT', 'IR']`
(app.py line 141). -/
def isInjuredOut (p : Player) : Bool :=
  p.injured && (p.injuryStatus == some "OUT" || p.injuryStatus == some "IR")

/-- The test `player['position'] in lineup_slots and
filled_slots[player['position']] < lineup_slots[player['position']]`
(app.py line 147). -/
def positionOpen (filled : String → Nat) (pos : String) : Bool :=
  match slotRequirement pos with
  | some r => decide (filled pos < r)
  | none => false

/-- The statement `filled_slots[player['position']] += 1` (app.py line 149):
the counter map with slot `s` incremented. -/
def bump (f : String → Nat) (s : String) : String → Nat :=
  fun t => if t = s then f s + 1 else f t

/-- Loop state of the optimizer pass: `optimal_lineup`, `benched`,
`filled_slots` (app.py lines 135-137). -/
structure OptState where
  optimal_lineup : List Assigned
  benched : List Assigned
  filled_slots : String → Nat

/-- Appending a player to `benched` with `recommendedSlot = 'BE'`
(app.py lines 142-143, 159-160, 162-163). -/
def placeBench (st : OptState) (p : Player) : OptState :=
  { st with benched := st.benched ++ [⟨p, "BE"⟩] }

/-- One iteration of the optimizer loop body (app.py lines 140-163). -/
def optimizeStep (st : OptState) (p : Player) : OptState :=
  if isInjuredOut p then
    placeBench st p
  else if positionOpen st.filled_slots p.position then
    { st with
      optimal_lineup := st.optimal_lineup ++ [⟨p, p.position⟩]
      filled_slots := bump st.filled_slots p.position }
  else if p.eligibleSlots.contains "RB/WR/TE"
      && decide (st.filled_slots "RB/WR/TE" < (slotRequirement "RB/WR/TE").getD 0) then
    if ["RB", "WR", "TE"].contains p.position then
      { st with
        optimal_lineup := st.optimal_lineup ++ [⟨p, "RB/WR/TE"⟩]
        filled_slots := bump st.filled_slots "RB/WR/TE" }
    else placeBench st p
  else placeBench st p

/-- Insertion of a player into a list already sorted by descending
`projectedPoints`, going after every earlier player with an equal or larger
projection: the insertion step of a stable descending sort. -/
def insertDesc (p : Player) : List Player → List Player
  | [] => [p]
  | q :: qs =>
    if p.projectedPoints ≤ q.projectedPoints then q :: insertDesc p qs
    else p :: q :: qs

/-- The stable sort `players.sort(key=lambda x: x['projectedPoints'],
reverse=True)` (app.py line 122): players in non-increasing order of
`projectedPoints`, ties keeping original roster order. -/
def sortByProjectedDesc (l : List Player) : List Player :=
  l.foldl (fun acc p => insertDesc p acc) []

/-- The JSON payload of `/api/espn/optimize-lineup` (app.py lines 165-169). -/
structure OptResult where
  optimalLineup : List Assigned
  bench : List Assigned
  totalProjected : Int
deriving DecidableEq

/-- The `optimize_lineup` handler's pure core (app.py lines 121-169): sort by
projected points descending, run the greedy pass, return starters, bench and
the sum of the starters' projections. -/
def optimize_lineup (roster : List Player) : OptResult :=
  let sorted := sortByProjectedDesc roster
  let final := sorted.foldl optimizeStep ⟨[], [], fun _ => 0⟩
  { optimalLineup := final.optimal_lineup
    bench := final.benched
    totalProjected := (final.optimal_lineup.map (fun p => p.player.projectedPoints)).sum }

/-- Weekly stat entry: the keys read by `player.stats[current_week].get(...)`
(app.py lines 60-61); `none` models an absent key, whose `.get` default is 0. -/
structure WeekStats where
  projected_points : Option Int
  points : Option Int
deriving DecidableEq

/-- The attributes of a raw league player read by the projection resolver
(app.py lines 55-69). `stats = none` models a player without a `stats`
attribute; `stats_ok = false` models the `try` block raising, which the bare
`except` at app.py line 67 turns into the season-average fallback; `none` in
the average fields models `getattr(..., 0)` finding no attribute. -/
structure RawPlayer where
  stats_ok : Bool
  stats : Option (List (Nat × WeekStats))
  projected_avg_points : Option Int
  avg_points : Option Int
deriving DecidableEq

/-- The guarded access `hasattr(player, 'stats') and current_week in
player.stats` followed by `player.stats[current_week]` (app.py line 59). -/
def weeklyStats (p : RawPlayer) (week : Nat) : Option WeekStats :=
  match p.stats with
  | none => none
  | some d => List.lookup week d

/-- The projection resolver (app.py lines 55-69): weekly values first, season
averages whenever a weekly value is zero or missing, zero when those are also
absent; a failing stats lookup degrades directly to the season averages. -/
def resolve_points (p : RawPlayer) (week : Nat) : Int × Int :=
  if p.stats_ok then
    let weekly :=
      match weeklyStats p week with
      | some ws => (ws.projected_points.getD 0, ws.points.getD 0)
      | none => ((0 : Int), (0 : Int))
    let projected := if weekly.1 = 0 then p.projected_avg_points.getD 0 else weekly.1
    let actual := if weekly.2 = 0 then p.avg_points.getD 0 else weekly.2
    (projected, actual)
  else
    (p.projected_avg_points.getD 0, p.avg_points.getD 0)

/-- Python `text.split('\n')` on character lists: cut at every newline,
keeping empty pieces. -/
def splitLinesAux : List Char → List Char → List (List Char)
  | [], acc => [acc.reverse]
  | c :: cs, acc =>
    if c = '\n' then acc.reverse :: splitLinesAux cs []
    else splitLinesAux cs (c :: acc)

/-- Python `ai_text.split('\n')` (app.py line 308). -/
def splitLines (s : String) : List String :=
  (splitLinesAux s.data []).map List.asString

/-- Python `line.strip()` (app.py line 310): drop leading and trailing
whitespace. -/
def pyStrip (s : String) : String :=
  (((s.data.dropWhile Char.isWhitespace).reverse.dropWhile Char.isWhitespace).reverse).asString

/-- Python `line.startswith(tag)` (app.py lines 311, 317, 323). -/
def pyStartsWith (s pre : String) : Bool :=
  pre.data.isPrefixOf s.data

/-- Python `line.split(':', 1)[1]` for lines known to carry a colon: the text
after the first colon (app.py lines 312, 319, 324). -/
def afterFirstColon : List Char → List Char
  | [] => []
  | c :: cs => if c = ':' then cs else afterFirstColon cs

/-- String wrapper of `afterFirstColon`. -/
def afterColon (s : String) : String :=
  (afterFirstColon s.data).asString

/-- Python `.upper()` (app.py line 312), ASCII as the scanner compares. -/
def pyUpper (s : String) : String :=
  (s.data.map Char.toUpper).asString

/-- Python single-character containment `'A' in rec` (app.py lines 313, 315). -/
def pyContainsChar (s : String) (c : Char) : Bool :=
  s.data.contains c

/-- Python `.replace('%', '')` (app.py line 319): remove every percent sign. -/
def removePercent (s : String) : String :=
  (s.data.filter (fun c => c != '%')).asString

/-- Value of an unsigned decimal digit string. -/
def digitsToNat (ds : List Char) : Nat :=
  ds.foldl (fun n c => 10 * n + (c.toNat - Char.toNat '0')) 0

/-- Parse a nonempty all-digit string, else nothing. -/
def decDigits? (ds : List Char) : Option Nat :=
  if !ds.isEmpty && ds.all (fun c => c.isDigit) then some (digitsToNat ds)
  else none

/-- Python `int(conf_str)` (app.py line 320) on the strings this scanner can
produce: optionally signed decimal digits with surrounding whitespace
tolerated; anything else fails, which the `except: pass` swallows. -/
def pyInt? (s : String) : Option Int :=
  match (pyStrip s).data with
  | [] => none
  | c :: cs =>
    if c = '-' then (decDigits? cs).map (fun n => -(n : Int))
    else if c = '+' then (decDigits? cs).map (fun n => (n : Int))
    else (decDigits? (c :: cs)).map (fun n => (n : Int))

/-- The three result variables of the reply scanner with their initial values
(app.py lines 303-305): recommendation `'A'`, confidence `50`, reasoning the
full raw reply. -/
structure ParseState where
  recommendation : String
  confidence : Int
  reasoning : String
deriving DecidableEq

/-- One iteration of the reply-scanning loop (app.py lines 309-324). -/
def parseLine (st : ParseState) (raw : String) : ParseState :=
  if pyStartsWith (pyStrip raw) "RECOMMENDATION:" then
    if pyContainsChar (pyUpper (pyStrip (afterColon (pyStrip raw)))) 'A' then
      { st with recommendation := "A" }
    else if pyContainsChar (pyUpper (pyStrip (afterColon (pyStrip raw)))) 'B' then
      { st with recommendation := "B" }
    else st
  else if pyStartsWith (pyStrip raw) "CONFIDENCE:" then
    match pyInt? (removePercent (pyStrip (afterColon (pyStrip raw)))) with
    | some n => { st with confidence := n }
    | none => st
  else if pyStartsWith (pyStrip raw) "REASONING:" then
    { st with reasoning := pyStrip (afterColon (pyStrip raw)) }
  else st

/-- The reply scanner of `ai_start_sit_advice` (app.py lines 302-324). -/
def parse_ai_reply (ai_text : String) : ParseState :=
  (splitLines ai_text).foldl parseLine
    { recommendation := "A", confidence := 50, reasoning := ai_text }

/-- Number of entries of `l` whose `recommendedSlot` is `s`. -/
def slotCount (l : List Assigned) (s : String) : Nat :=
  l.countP (fun a => a.recommendedSlot == s)

/-- A sample healthy running back used in concrete checks. -/
def mkPlayer (nm : String) (pos : String) (slots : List String) (proj : Int) : Player :=
  { name := nm, position := pos, proTeam := "T", lineupSlot := "BE",
    eligibleSlots := slots, projectedPoints := proj,
    injured := false, injuryStatus := some "ACTIVE", playerId := none }

/-- A quarterback whose injury status reads OUT while the `injured` flag is
false: the two attributes are independent in the league data, and app.py line
141 tests their conjunction. -/
def outFlagless : Player :=
  { name := "Q0", position := "QB", proTeam := "T", lineupSlot := "BE",
    eligibleSlots := ["QB"], projectedPoints := 10,
    injured := false, injuryStatus := some "OUT", playerId := none }

/-- A running back who is both flagged injured and listed OUT. -/
def outInjured : Player :=
  { name := "R0", position := "RB", proTeam := "T", lineupSlot := "BE",
    eligibleSlots := ["RB", "RB/WR/TE"], projectedPoints := 30,
    injured := true, injuryStatus := some "OUT", playerId := none }

/-- First quarterback of the nine-player scenario roster. -/
def qb1 : Player := mkPlayer "QB1" "QB" ["QB"] 20

/-- Second, lower-projected quarterback of the scenario roster. -/
def qb2 : Player := mkPlayer "QB2" "QB" ["QB"] 18

/-- Scenario running back one. -/
def rb1 : Player := mkPlayer "RB1" "RB" ["RB", "RB/WR/TE"] 16

/-- Scenario running back two. -/
def rb2 : Player := mkPlayer "RB2" "RB" ["RB", "RB/WR/TE"] 15

/-- Scenario running back three, destined for the flex slot. -/
def rb3 : Player := mkPlayer "RB3" "RB" ["RB", "RB/WR/TE"] 14

/-- Scenario wide receiver one. -/
def wr1 : Player := mkPlayer "WR1" "WR" ["WR", "RB/WR/TE"] 13

/-- Scenario wide receiver two. -/
def wr2 : Player := mkPlayer "WR2" "WR" ["WR", "RB/WR/TE"] 12

/-- Scenario tight end. -/
def te1 : Player := mkPlayer "TE1" "TE" ["TE", "RB/WR/TE"] 11

/-- Scenario kicker. -/
def k1 : Player := mkPlayer "K1" "K" ["K"] 7

/-- The spec's scenario roster: nine players, two of them quarterbacks. -/
def rosterNine : List Player :=
  [qb1, qb2, rb1, rb2, rb3, wr1, wr2, te1, k1]

/-- The spec's well-formed three-line AI reply. -/
def wellFormedReply : String :=
  "RECOMMENDATION: A\nCONFIDENCE: 82%\nREASONING: Player A has a better matchup."

/-- A raw player with a nonzero weekly projection, a zero weekly actual and
both season averages present. -/
def rawEx : RawPlayer :=
  { stats_ok := true
    stats := some [(3, ⟨some 7, some 0⟩)]
    projected_avg_points := some 9
    avg_points := some 4 }

/-- Non-increasing projection order: `a` comes no later than `b` in a
descending sort exactly when `b`'s projection is at most `a`'s. -/
def DescOrder (a b : Player) : Prop :=
  b.projectedPoints ≤ a.projectedPoints

theorem insertDesc_perm (p : Player) (l : List Player) :
    List.Perm (insertDesc p l) (p :: l) := by
  induction l with
  | nil => exact List.Perm.refl _
  | cons q qs ih =>
    unfold insertDesc
    split
    · exact (ih.cons q).trans (List.Perm.swap p q qs)
    · exact List.Perm.refl _

theorem mem_insertDesc {p x : Player} {l : List Player} :
    x ∈ insertDesc p l ↔ x = p ∨ x ∈ l := by
  rw [(insertDesc_perm p l).mem_iff, List.mem_cons]

theorem insertDesc_pairwise (p : Player) {l : List Player}
    (h : l.Pairwise DescOrder) : (insertDesc p l).Pairwise DescOrder := by
  induction l with
  | nil => simp [insertDesc, List.Pairwise]
  | cons q qs ih =>
    rcases List.pairwise_cons.mp h with ⟨hq, hqs⟩
    unfold insertDesc
    split
    · rename_i hle
      refine List.pairwise_cons.mpr ⟨?_, ih hqs⟩
      intro x hx
      rcases mem_insertDesc.mp hx with rfl | hx
      · exact hle
      · exact hq x hx
    · rename_i hlt
      refine List.pairwise_cons.mpr ⟨?_, h⟩
      intro x hx
      rcases List.mem_cons.mp hx with rfl | hx
      · exact le_of_lt (lt_of_not_le hlt)
      · exact le_trans (hq x hx) (le_of_lt (lt_of_not_le hlt))

theorem insertDesc_filter (k : Int) (p : Player) {l : List Player}
    (h : l.Pairwise DescOrder) :
    (insertDesc p l).filter (fun q => q.projectedPoints == k)
      = l.filter (fun q => q.projectedPoints == k)
        ++ List.filter (fun q => q.projectedPoints == k) [p] := by
  induction l with
  | nil => simp [insertDesc]
  | cons q qs ih =>
    rcases List.pairwise_cons.mp h with ⟨hq, hqs⟩
    unfold insertDesc
    split
    · rename_i hle
      by_cases hqk : q.projectedPoints = k <;>
        simp [List.filter_cons, hqk, ih hqs]
    · rename_i hlt
      by_cases hpk : p.projectedPoints = k
      · have hnil : qs.filter (fun q => q.projectedPoints == k) = [] := by
          refine List.filter_eq_nil_iff.mpr ?_
          intro x hx
          have hxq : x.projectedPoints ≤ q.projectedPoints := hq x hx
          have : x.projectedPoints < p.projectedPoints :=
            lt_of_le_of_lt hxq (lt_of_not_le hlt)
          simp only [beq_iff_eq]
          omega
        have hqknot : ¬ q.projectedPoints = k := by
          have : q.projectedPoints < p.projectedPoints := lt_of_not_le hlt
          omega
        simp [List.filter_cons, hpk, hqknot, hnil]
      · simp [List.filter_cons, hpk]

theorem sort_foldl_perm (l acc : List Player) :
    List.Perm (l.foldl (fun acc p => insertDesc p acc) acc) (acc ++ l) := by
  induction l generalizing acc with
  | nil => simp
  | cons p rest ih =>
    simp only [List.foldl_cons]
    refine (ih (insertDesc p acc)).trans ?_
    refine (((insertDesc_perm p acc).append_right rest).trans ?_)
    exact List.perm_middle.symm

theorem sort_foldl_pairwise (l : List Player) {acc : List Player}
    (h : acc.Pairwise DescOrder) :
    (l.foldl (fun acc p => insertDesc p acc) acc).Pairwise DescOrder := by
  induction l generalizing acc with
  | nil => exact h
  | cons p rest ih =>
    simp only [List.foldl_cons]
    exact ih (insertDesc_pairwise p h)

theorem sort_foldl_filter (k : Int) (l : List Player) {acc : List Player}
    (h : acc.Pairwise DescOrder) :
    (l.foldl (fun acc p => insertDesc p acc) acc).filter
        (fun q => q.projectedPoints == k)
      = acc.filter (fun q => q.projectedPoints == k)
        ++ l.filter (fun q => q.projectedPoints == k) := by
  induction l generalizing acc with
  | nil => simp
  | cons p rest ih =>
    simp only [List.foldl_cons]
    rw [ih (insertDesc_pairwise p h), insertDesc_filter k p h]
    by_cases hpk : p.projectedPoints = k <;>
      simp [List.filter_cons, hpk]

theorem sortByProjectedDesc_perm (l : List Player) :
    List.Perm (sortByProjectedDesc l) l := by
  simpa using sort_foldl_perm l []

theorem sortByProjectedDesc_pairwise (l : List Player) :
    (sortByProjectedDesc l).Pairwise DescOrder :=
  sort_foldl_pairwise l (by simp)

theorem sortByProjectedDesc_filter (k : Int) (l : List Player) :
    (sortByProjectedDesc l).filter (fun q => q.projectedPoints == k)
      = l.filter (fun q => q.projectedPoints == k) := by
  simpa using @sort_foldl_filter k l [] (by simp)

theorem mem_sortByProjectedDesc {p : Player} {l : List Player} :
    p ∈ sortByProjectedDesc l ↔ p ∈ l :=
  (sortByProjectedDesc_perm l).mem_iff

theorem positionOpen_iff {f : String → Nat} {pos : String} :
    positionOpen f pos = true ↔ ∃ r, slotRequirement pos = some r ∧ f pos < r := by
  unfold positionOpen
  cases h : slotRequirement pos <;> simp [h]

theorem optimizeStep_shape (st : OptState) (p : Player) :
    ((optimizeStep st p).optimal_lineup = st.optimal_lineup
      ∧ (optimizeStep st p).benched = st.benched ++ [⟨p, "BE"⟩])
    ∨ (∃ s, (optimizeStep st p).optimal_lineup = st.optimal_lineup ++ [⟨p, s⟩]
      ∧ (optimizeStep st p).benched = st.benched) := by
  unfold optimizeStep placeBench
  split
  · exact Or.inl ⟨rfl, rfl⟩
  · split
    · exact Or.inr ⟨p.position, rfl, rfl⟩
    · split
      · split
        · exact Or.inr ⟨"RB/WR/TE", rfl, rfl⟩
        · exact Or.inl ⟨rfl, rfl⟩
      · exact Or.inl ⟨rfl, rfl⟩

theorem foldl_optimizeStep_inv (P : OptState → Prop)
    (hstep : ∀ st p, P st → P (optimizeStep st p)) :
    ∀ (l : List Player) (st : OptState), P st → P (l.foldl optimizeStep st) := by
  intro l
  induction l with
  | nil => intro st h; exact h
  | cons p rest ih =>
    intro st h
    simp only [List.foldl_cons]
    exact ih _ (hstep st p h)

theorem foldl_optimizeStep_inv_mem (P : OptState → Prop) (Q : Player → Prop)
    (hstep : ∀ st p, Q p → P st → P (optimizeStep st p)) :
    ∀ (l : List Player) (st : OptState), (∀ p ∈ l, Q p) → P st →
      P (l.foldl optimizeStep st) := by
  intro l
  induction l with
  | nil => intro st _ h; exact h
  | cons p rest ih =>
    intro st hQ h
    simp only [List.foldl_cons]
    exact ih _ (fun q hq => hQ q (List.mem_cons_of_mem p hq))
      (hstep st p (hQ p (List.mem_cons_self p rest)) h)

theorem foldl_optimizeStep_perm (l : List Player) (st : OptState) :
    List.Perm
      ((l.foldl optimizeStep st).optimal_lineup.map Assigned.player
        ++ (l.foldl optimizeStep st).benched.map Assigned.player)
      ((st.optimal_lineup.map Assigned.player ++ st.benched.map Assigned.player) ++ l) := by
  induction l generalizing st with
  | nil => simp
  | cons p rest ih =>
    simp only [List.foldl_cons]
    refine (ih (optimizeStep st p)).trans ?_
    rcases optimizeStep_shape st p with ⟨ho, hb⟩ | ⟨s, ho, hb⟩
    · rw [ho, hb]
      simp only [List.map_append, List.map_cons, List.map_nil, List.append_assoc,
        List.singleton_append, List.cons_append, List.nil_append]
      exact List.Perm.refl _
    · rw [ho, hb]
      simp only [List.map_append, List.map_cons, List.map_nil, List.append_assoc,
        List.singleton_append, List.cons_append, List.nil_append]
      exact List.Perm.append_left _ List.perm_middle.symm

theorem foldl_optimizeStep_sublist (l : List Player) (st : OptState) (A : List Player)
    (h : List.Sublist (st.optimal_lineup.map Assigned.player) A) :
    List.Sublist ((l.foldl optimizeStep st).optimal_lineup.map Assigned.player) (A ++ l) := by
  induction l generalizing st A with
  | nil => simpa using h
  | cons p rest ih =>
    simp only [List.foldl_cons]
    rcases optimizeStep_shape st p with ⟨ho, _⟩ | ⟨s, ho, _⟩
    · have h' : List.Sublist ((optimizeStep st p).optimal_lineup.map Assigned.player)
          (A ++ [p]) := by
        rw [ho]
        exact h.trans (List.sublist_append_left A [p])
      have := ih (optimizeStep st p) (A ++ [p]) h'
      simpa [List.append_assoc] using this
    · have h' : List.Sublist ((optimizeStep st p).optimal_lineup.map Assigned.player)
          (A ++ [p]) := by
        rw [ho]
        simp only [List.map_append, List.map_cons, List.map_nil]
        exact List.Sublist.append h (List.Sublist.refl _)
      have := ih (optimizeStep st p) (A ++ [p]) h'
      simpa [List.append_assoc] using this

theorem optimize_players_perm (roster : List Player) :
    List.Perm
      ((optimize_lineup roster).optimalLineup.map Assigned.player
        ++ (optimize_lineup roster).bench.map Assigned.player)
      roster := by
  have hperm := foldl_optimizeStep_perm (sortByProjectedDesc roster) ⟨[], [], fun _ => 0⟩
  simp only [List.map_nil, List.nil_append] at hperm
  exact hperm.trans (sortByProjectedDesc_perm roster)

theorem optimize_starters_not_injured (roster : List Player) :
    ∀ a ∈ (optimize_lineup roster).optimalLineup, isInjuredOut a.player = false := by
  have h := foldl_optimizeStep_inv
    (fun st => ∀ a ∈ st.optimal_lineup, isInjuredOut a.player = false)
    (fun st p hP => by
      unfold optimizeStep placeBench
      split
      · exact hP
      · rename_i hinj
        rw [Bool.not_eq_true] at hinj
        split
        · intro a ha
          rcases List.mem_append.mp ha with ha | ha
          · exact hP a ha
          · rcases List.mem_singleton.mp ha with rfl
            exact hinj
        · split
          · split
            · intro a ha
              rcases List.mem_append.mp ha with ha | ha
              · exact hP a ha
              · rcases List.mem_singleton.mp ha with rfl
                exact hinj
            · exact hP
          · exact hP)
    (sortByProjectedDesc roster) ⟨[], [], fun _ => 0⟩ (by intro a ha; cases ha)
  exact h

theorem optimize_bench_tagged (roster : List Player) :
    ∀ a ∈ (optimize_lineup roster).bench, a.recommendedSlot = "BE" := by
  have h := foldl_optimizeStep_inv
    (fun st => ∀ a ∈ st.benched, a.recommendedSlot = "BE")
    (fun st p hP => by
      rcases optimizeStep_shape st p with ⟨_, hb⟩ | ⟨s, _, hb⟩
      · rw [hb]
        intro a ha
        rcases List.mem_append.mp ha with ha | ha
        · exact hP a ha
        · rcases List.mem_singleton.mp ha with rfl
          rfl
      · rw [hb]
        exact hP)
    (sortByProjectedDesc roster) ⟨[], [], fun _ => 0⟩ (by intro a ha; cases ha)
  exact h

theorem optimize_counts_le (roster : List Player) :
    ∀ s r, slotRequirement s = some r →
      slotCount (optimize_lineup roster).optimalLineup s ≤ r := by
  have h := foldl_optimizeStep_inv
    (fun st =>
      (∀ s, st.optimal_lineup.countP (fun a => a.recommendedSlot == s) = st.filled_slots s)
      ∧ (∀ s r, slotRequirement s = some r → st.filled_slots s ≤ r))
    (fun st p hP => by
      rcases hP with ⟨hc, hb⟩
      unfold optimizeStep placeBench
      split
      · exact ⟨hc, hb⟩
      · split
        · rename_i hopen
          rcases positionOpen_iff.mp hopen with ⟨r, hr, hlt⟩
          refine ⟨?_, ?_⟩
          · intro s
            by_cases hs : s = p.position
            · subst hs
              simp [List.countP_append, List.countP_cons, bump, hc p.position]
            · simp [List.countP_append, List.countP_cons, bump, hs,
                Ne.symm hs, hc s]
          · intro s r' hr'
            by_cases hs : s = p.position
            · subst hs
              rw [hr] at hr'
              injection hr' with hrr
              subst hrr
              simp [bump]
              omega
            · simp only [bump, if_neg hs]
              exact hb s r' hr'
        · split
          · split
            · rename_i hflex _
              have h2 := ((Bool.and_eq_true _ _).mp hflex).2
              have hlt : st.filled_slots "RB/WR/TE" < 1 := by
                have h3 := of_decide_eq_true h2
                have hreq : (slotRequirement "RB/WR/TE").getD 0 = 1 := by decide
                rwa [hreq] at h3
              refine ⟨?_, ?_⟩
              · intro s
                by_cases hs : s = "RB/WR/TE"
                · subst hs
                  simp [List.countP_append, List.countP_cons, bump, hc "RB/WR/TE"]
                · simp [List.countP_append, List.countP_cons, bump, hs,
                    Ne.symm hs, hc s]
              · intro s r' hr'
                by_cases hs : s = "RB/WR/TE"
                · subst hs
                  have hreq2 : slotRequirement "RB/WR/TE" = some 1 := by decide
                  rw [hreq2] at hr'
                  injection hr' with hrr
                  subst hrr
                  simp [bump]
                  omega
                · simp only [bump, if_neg hs]
                  exact hb s r' hr'
            · exact ⟨hc, hb⟩
          · exact ⟨hc, hb⟩)
    (sortByProjectedDesc roster) ⟨[], [], fun _ => 0⟩
    ⟨fun _ => rfl, fun _ r _ => Nat.zero_le r⟩
  intro s r hr
  calc slotCount (optimize_lineup roster).optimalLineup s
      = _ := h.1 s
    _ ≤ r := h.2 s r hr

theorem optimize_flex_natural (roster : List Player)
    (hros : ∀ p ∈ roster, p.position ≠ "RB/WR/TE") :
    ∀ a ∈ (optimize_lineup roster).optimalLineup,
      a.recommendedSlot = "RB/WR/TE" →
        a.player.position ∈ (["RB", "WR", "TE"] : List String) := by
  have h := foldl_optimizeStep_inv_mem
    (fun st => ∀ a ∈ st.optimal_lineup, a.recommendedSlot = "RB/WR/TE" →
      a.player.position ∈ (["RB", "WR", "TE"] : List String))
    (fun p => p.position ≠ "RB/WR/TE")
    (fun st p hQ hP => by
      unfold optimizeStep placeBench
      split
      · exact hP
      · split
        · intro a ha
          rcases List.mem_append.mp ha with ha | ha
          · exact hP a ha
          · rcases List.mem_singleton.mp ha with rfl
            intro hslot
            exact absurd hslot hQ
        · split
          · split
            · rename_i hmem
              intro a ha
              rcases List.mem_append.mp ha with ha | ha
              · exact hP a ha
              · rcases List.mem_singleton.mp ha with rfl
                intro _
                simpa using hmem
            · exact hP
          · exact hP)
    (sortByProjectedDesc roster) ⟨[], [], fun _ => 0⟩
    (fun p hp => hros p (mem_sortByProjectedDesc.mp hp))
    (by intro a ha; cases ha)
  exact h

theorem parseLine_not_rec (st : ParseState) (raw : String)
    (h : pyStartsWith (pyStrip raw) "RECOMMENDATION:" = false) :
    (parseLine st raw).recommendation = st.recommendation := by
  unfold parseLine
  rw [h]
  simp only [Bool.false_eq_true, if_false]
  split
  · split <;> rfl
  · split <;> rfl

theorem parseLine_confidence_unchanged (st : ParseState) (raw : String)
    (hq : pyStartsWith (pyStrip raw) "CONFIDENCE:" = true →
      pyInt? (removePercent (pyStrip (afterColon (pyStrip raw)))) = none) :
    (parseLine st raw).confidence = st.confidence := by
  unfold parseLine
  split
  · split
    · rfl
    · split <;> rfl
  · split
    · rename_i hconf
      rw [hq hconf]
    · split <;> rfl

theorem foldl_parseLine_inv (P : ParseState → Prop) (Q : String → Prop)
    (hstep : ∀ st raw, Q raw → P st → P (parseLine st raw)) :
    ∀ (ls : List String) (st : ParseState), (∀ x ∈ ls, Q x) → P st →
      P (ls.foldl parseLine st) := by
  intro ls
  induction ls with
  | nil => intro st _ h; exact h
  | cons x rest ih =>
    intro st hQ h
    simp only [List.foldl_cons]
    exact ih _ (fun y hy => hQ y (List.mem_cons_of_mem x hy))
      (hstep st x (hQ x (List.mem_cons_self x rest)) h)

theorem parse_reply_default_rec (t : String)
    (h : ∀ l ∈ splitLines t, pyStartsWith (pyStrip l) "RECOMMENDATION:" = false) :
    (parse_ai_reply t).recommendation = "A" :=
  foldl_parseLine_inv (fun st => st.recommendation = "A")
    (fun raw => pyStartsWith (pyStrip raw) "RECOMMENDATION:" = false)
    (fun st raw hq hP => by
      show (parseLine st raw).recommendation = "A"
      rw [parseLine_not_rec st raw hq]
      exact hP)
    (splitLines t) _ h rfl

theorem parse_reply_confidence_of_unparsable (t : String)
    (h : ∀ l ∈ splitLines t, pyStartsWith (pyStrip l) "CONFIDENCE:" = true →
      pyInt? (removePercent (pyStrip (afterColon (pyStrip l)))) = none) :
    (parse_ai_reply t).confidence = 50 :=
  foldl_parseLine_inv (fun st => st.confidence = 50)
    (fun raw => pyStartsWith (pyStrip raw) "CONFIDENCE:" = true →
      pyInt? (removePercent (pyStrip (afterColon (pyStrip raw)))) = none)
    (fun st raw hq hP => by
      show (parseLine st raw).confidence = 50
      rw [parseLine_confidence_unchanged st raw hq]
      exact hP)
    (splitLines t) _ h rfl

theorem parseLine_rec_resolution (st : ParseState) (raw : String)
    (h : pyStartsWith (pyStrip raw) "RECOMMENDATION:" = true) :
    (pyContainsChar (pyUpper (pyStrip (afterColon (pyStrip raw)))) 'A' = true →
        (parseLine st raw).recommendation = "A")
      ∧ (pyContainsChar (pyUpper (pyStrip (afterColon (pyStrip raw)))) 'A' = false →
          pyContainsChar (pyUpper (pyStrip (afterColon (pyStrip raw)))) 'B' = true →
        (parseLine st raw).recommendation = "B")
      ∧ (pyContainsChar (pyUpper (pyStrip (afterColon (pyStrip raw)))) 'A' = false →
          pyContainsChar (pyUpper (pyStrip (afterColon (pyStrip raw)))) 'B' = false →
        (parseLine st raw).recommendation = st.recommendation) := by
  unfold parseLine
  rw [h]
  refine ⟨?_, ?_, ?_⟩
  · intro hA
    simp [hA]
  · intro hA hB
    simp [hA, hB]
  · intro hA hB
    simp [hA, hB]

end AiAtl

namespace AiAtl

theorem not_starter_of_injured (roster : List Player) (p : Player)
    (hinj : p.injured = true)
    (hst : p.injuryStatus = some "OUT" ∨ p.injuryStatus = some "IR") :
    p ∉ (optimize_lineup roster).optimalLineup.map Assigned.player := by
  intro hp
  rcases List.mem_map.mp hp with ⟨a, ha, rfl⟩
  have hfalse := optimize_starters_not_injured roster a ha
  have htrue : isInjuredOut a.player = true := by
    unfold isInjuredOut
    rcases hst with h | h <;> simp [hinj, h]
  rw [htrue] at hfalse
  cases hfalse

/-- C1: for every roster, the optimizer output partitions the roster exactly:
starters and bench players together are a permutation of the roster (every
player on exactly one side, no duplicates, no omissions), and the lengths of
starters plus bench add up to the roster length. -/
theorem optimize_lineup_partitions_roster (roster : List Player) :
    List.Perm
      ((optimize_lineup roster).optimalLineup.map Assigned.player
        ++ (optimize_lineup roster).bench.map Assigned.player)
      roster
    ∧ (optimize_lineup roster).optimalLineup.length
        + (optimize_lineup roster).bench.length = roster.length := by
  refine ⟨optimize_players_perm roster, ?_⟩
  have h := (optimize_players_perm roster).length_eq
  simpa [List.length_append, List.length_map] using h

/-- C2: for every roster, every slot of the lineup requirement and its count,
the number of starters the optimizer assigns to that slot never exceeds the
count. -/
theorem optimize_lineup_slot_counts_bounded (roster : List Player) (s : String)
    (r : Nat) (hs : slotRequirement s = some r) :
    slotCount (optimize_lineup roster).optimalLineup s ≤ r :=
  optimize_counts_le roster s r hs

/-- Witness for C2 at the scenario roster and the RB slot. -/
theorem optimize_lineup_slot_counts_bounded_witness :
    slotRequirement "RB" = some 2
    ∧ slotCount (optimize_lineup rosterNine).optimalLineup "RB" ≤ 2 :=
  ⟨by decide, optimize_lineup_slot_counts_bounded rosterNine "RB" 2 (by decide)⟩

/-- C3 counterexample: a player whose injury status is OUT but whose injured
flag is false is placed in the starters, so an OUT status alone does not keep
a player out of the lineup. -/
theorem out_status_alone_starts :
    outFlagless.injuryStatus = some "OUT"
    ∧ outFlagless.injured = false
    ∧ (optimize_lineup [outFlagless]).optimalLineup.map Assigned.player
        = [outFlagless] := by
  refine ⟨rfl, rfl, ?_⟩
  decide

/-- C3 (amended): every roster player with the injured flag true and injury
status OUT or IR is never placed in the starters list. -/
theorem injured_out_never_starts (roster : List Player) (p : Player)
    (hmem : p ∈ roster) (hinj : p.injured = true)
    (hst : p.injuryStatus = some "OUT" ∨ p.injuryStatus = some "IR") :
    p ∉ (optimize_lineup roster).optimalLineup.map Assigned.player :=
  not_starter_of_injured roster p hinj hst

/-- Witness for C3's amended statement on a one-player roster. -/
theorem injured_out_never_starts_witness :
    outInjured ∈ [outInjured]
    ∧ outInjured.injured = true
    ∧ outInjured.injuryStatus = some "OUT"
    ∧ outInjured ∉ (optimize_lineup [outInjured]).optimalLineup.map Assigned.player :=
  ⟨by decide, rfl, rfl,
    injured_out_never_starts [outInjured] outInjured (by decide) rfl (Or.inl rfl)⟩

/-- C4: every roster player with injured true and status OUT or IR is benched
with recommended slot BE and never appears among the starters. -/
theorem injured_out_benched (roster : List Player) (p : Player)
    (hmem : p ∈ roster) (hinj : p.injured = true)
    (hst : p.injuryStatus = some "OUT" ∨ p.injuryStatus = some "IR") :
    p ∈ (optimize_lineup roster).bench.map Assigned.player
    ∧ p ∉ (optimize_lineup roster).optimalLineup.map Assigned.player
    ∧ ∀ a ∈ (optimize_lineup roster).bench, a.recommendedSlot = "BE" := by
  have hnot := not_starter_of_injured roster p hinj hst
  have hsplit : p ∈ (optimize_lineup roster).optimalLineup.map Assigned.player
      ++ (optimize_lineup roster).bench.map Assigned.player :=
    (optimize_players_perm roster).mem_iff.mpr hmem
  rcases List.mem_append.mp hsplit with hp | hp
  · exact absurd hp hnot
  · exact ⟨hp, hnot, optimize_bench_tagged roster⟩

/-- Witness for C4 on a two-player roster containing an injured OUT back. -/
theorem injured_out_benched_witness :
    outInjured ∈ [outInjured, rb1]
    ∧ outInjured.injured = true
    ∧ outInjured.injuryStatus = some "OUT"
    ∧ outInjured ∈ (optimize_lineup [outInjured, rb1]).bench.map Assigned.player :=
  ⟨by decide, rfl, rfl,
    (injured_out_benched [outInjured, rb1] outInjured (by decide) rfl (Or.inl rfl)).1⟩

/-- C5: the totalProjected field of the optimizer result equals the exact sum
of projectedPoints over the returned starters list. -/
theorem totalProjected_eq_sum_starters (roster : List Player) :
    (optimize_lineup roster).totalProjected
      = ((optimize_lineup roster).optimalLineup.map
          (fun a => a.player.projectedPoints)).sum := rfl

end AiAtl

namespace AiAtl

/-- C6: the projection resolver returns (0, 0) when weekly stats and season
averages are all absent; returns a weekly value as-is when it is present and
nonzero; falls back to the season average exactly when the weekly value is
zero or missing; and a failing stats lookup degrades to the season averages
(and through their defaults to zero) instead of raising. -/
theorem resolve_points_fallback (p : RawPlayer) (week : Nat) :
    (p.stats_ok = true → weeklyStats p week = none →
      p.projected_avg_points = none → p.avg_points = none →
      resolve_points p week = (0, 0))
    ∧ (∀ ws, p.stats_ok = true → weeklyStats p week = some ws →
        ws.projected_points.getD 0 ≠ 0 →
        (resolve_points p week).1 = ws.projected_points.getD 0)
    ∧ (∀ ws, p.stats_ok = true → weeklyStats p week = some ws →
        ws.points.getD 0 ≠ 0 →
        (resolve_points p week).2 = ws.points.getD 0)
    ∧ (∀ ws, p.stats_ok = true → weeklyStats p week = some ws →
        ws.projected_points.getD 0 = 0 →
        (resolve_points p week).1 = p.projected_avg_points.getD 0)
    ∧ (∀ ws, p.stats_ok = true → weeklyStats p week = some ws →
        ws.points.getD 0 = 0 →
        (resolve_points p week).2 = p.avg_points.getD 0)
    ∧ (p.stats_ok = true → weeklyStats p week = none →
        resolve_points p week = (p.projected_avg_points.getD 0, p.avg_points.getD 0))
    ∧ (p.stats_ok = false →
        resolve_points p week = (p.projected_avg_points.getD 0, p.avg_points.getD 0)) := by
  refine ⟨?_, ?_, ?_, ?_, ?_, ?_, ?_⟩
  · intro hok hw hpa hav
    simp [resolve_points, hok, hw, hpa, hav]
  · intro ws hok hw hne
    simp [resolve_points, hok, hw, hne]
  · intro ws hok hw hne
    simp [resolve_points, hok, hw, hne]
  · intro ws hok hw hz
    simp [resolve_points, hok, hw, hz]
  · intro ws hok hw hz
    simp [resolve_points, hok, hw, hz]
  · intro hok hw
    simp [resolve_points, hok, hw]
  · intro hok
    simp [resolve_points, hok]

/-- Witness for C6 at a player whose weekly projection is nonzero and whose
weekly actual is zero. -/
theorem resolve_points_fallback_witness :
    rawEx.stats_ok = true
    ∧ weeklyStats rawEx 3 = some ⟨some 7, some 0⟩
    ∧ (resolve_points rawEx 3).1 = 7
    ∧ (resolve_points rawEx 3).2 = 4 :=
  ⟨rfl, by decide,
    by simpa using
      (resolve_points_fallback rawEx 3).2.1 ⟨some 7, some 0⟩ rfl (by decide) (by decide),
    by simpa using
      (resolve_points_fallback rawEx 3).2.2.2.2.1 ⟨some 7, some 0⟩ rfl (by decide) (by decide)⟩

/-- C7: only players whose natural position is RB, WR or TE can occupy the
flex slot (for rosters whose positions are natural positions, never the flex
slot name itself), and on the nine-player two-quarterback scenario roster the
optimizer starts exactly one quarterback, the higher-projected one, benching
the other. -/
theorem flex_natural_position_and_two_qb_scenario :
    (∀ roster, (∀ p ∈ roster, p.position ≠ "RB/WR/TE") →
      ∀ a ∈ (optimize_lineup roster).optimalLineup,
        a.recommendedSlot = "RB/WR/TE" →
          a.player.position ∈ (["RB", "WR", "TE"] : List String))
    ∧ (optimize_lineup rosterNine).optimalLineup.countP
        (fun a => a.player.position == "QB") = 1
    ∧ (⟨qb1, "QB"⟩ : Assigned) ∈ (optimize_lineup rosterNine).optimalLineup
    ∧ (⟨qb2, "BE"⟩ : Assigned) ∈ (optimize_lineup rosterNine).bench := by
  refine ⟨optimize_flex_natural, ?_, ?_, ?_⟩ <;> decide

/-- Witness for C7's flex-eligibility statement: the scenario roster's third
back occupies the flex slot and its position is among RB, WR, TE. -/
theorem flex_natural_position_and_two_qb_scenario_witness :
    (⟨rb3, "RB/WR/TE"⟩ : Assigned) ∈ (optimize_lineup rosterNine).optimalLineup
    ∧ rb3.position ∈ (["RB", "WR", "TE"] : List String) :=
  ⟨by decide,
    flex_natural_position_and_two_qb_scenario.1 rosterNine (by decide)
      ⟨rb3, "RB/WR/TE"⟩ (by decide) rfl⟩

/-- C8: the well-formed three-line reply parses to recommendation A,
confidence 82 and the reasoning remainder; in general a RECOMMENDATION line's
upper-cased remainder resolves to A when it contains 'A', else to B when it
contains 'B', and with no RECOMMENDATION line at all the default A stands. -/
theorem parse_ai_reply_wellformed_and_resolution :
    parse_ai_reply wellFormedReply
      = { recommendation := "A", confidence := 82,
          reasoning := "Player A has a better matchup." }
    ∧ (∀ st raw, pyStartsWith (pyStrip raw) "RECOMMENDATION:" = true →
        (pyContainsChar (pyUpper (pyStrip (afterColon (pyStrip raw)))) 'A' = true →
          (parseLine st raw).recommendation = "A")
        ∧ (pyContainsChar (pyUpper (pyStrip (afterColon (pyStrip raw)))) 'A' = false →
            pyContainsChar (pyUpper (pyStrip (afterColon (pyStrip raw)))) 'B' = true →
          (parseLine st raw).recommendation = "B"))
    ∧ (∀ t, (∀ l ∈ splitLines t, pyStartsWith (pyStrip l) "RECOMMENDATION:" = false) →
        (parse_ai_reply t).recommendation = "A") := by
  refine ⟨by decide, ?_, parse_reply_default_rec⟩
  intro st raw h
  exact ⟨(parseLine_rec_resolution st raw h).1, (parseLine_rec_resolution st raw h).2.1⟩

/-- Witness for C8's resolution statement: a lowercase b remainder resolves
to B. -/
theorem parse_ai_reply_wellformed_and_resolution_witness :
    (parseLine ⟨"A", 50, "x"⟩ "RECOMMENDATION: b").recommendation = "B" :=
  (parse_ai_reply_wellformed_and_resolution.2.1 ⟨"A", 50, "x"⟩
    "RECOMMENDATION: b" (by decide)).2 (by decide) (by decide)

/-- C9: when every CONFIDENCE line of a reply carries a value the integer
parse rejects (percent sign stripped), the scanner leaves the confidence at
its default 50; the scanner is a total function, so no exception escapes. -/
theorem confidence_defaults_on_unparsable (t : String)
    (h : ∀ l ∈ splitLines t, pyStartsWith (pyStrip l) "CONFIDENCE:" = true →
      pyInt? (removePercent (pyStrip (afterColon (pyStrip l)))) = none) :
    (parse_ai_reply t).confidence = 50 :=
  parse_reply_confidence_of_unparsable t h

/-- Witness for C9 on the spec's malformed reply. -/
theorem confidence_defaults_on_unparsable_witness :
    (parse_ai_reply "RECOMMENDATION: A\nCONFIDENCE: unknown\nREASONING: x").confidence
      = 50 :=
  confidence_defaults_on_unparsable
    "RECOMMENDATION: A\nCONFIDENCE: unknown\nREASONING: x" (by decide)

/-- C10: the starters list follows the stable descending sort of the roster:
the sort is a permutation of the roster, non-increasing in projected points,
stable (players of equal projection keep their roster order, expressed by
filter preservation), and the starters are a subsequence of it, hence
themselves ordered by non-increasing projected points. -/
theorem starters_follow_sorted_order (roster : List Player) :
    List.Sublist ((optimize_lineup roster).optimalLineup.map Assigned.player)
      (sortByProjectedDesc roster)
    ∧ List.Perm (sortByProjectedDesc roster) roster
    ∧ (sortByProjectedDesc roster).Pairwise DescOrder
    ∧ (∀ k, (sortByProjectedDesc roster).filter (fun q => q.projectedPoints == k)
        = roster.filter (fun q => q.projectedPoints == k))
    ∧ ((optimize_lineup roster).optimalLineup.map Assigned.player).Pairwise DescOrder := by
  have hsub : List.Sublist ((optimize_lineup roster).optimalLineup.map Assigned.player)
      (sortByProjectedDesc roster) := by
    have h := foldl_optimizeStep_sublist (sortByProjectedDesc roster)
      ⟨[], [], fun _ => 0⟩ [] (by simp)
    simpa using h
  exact ⟨hsub, sortByProjectedDesc_perm roster, sortByProjectedDesc_pairwise roster,
    fun k => sortByProjectedDesc_filter k roster,
    List.Pairwise.sublist hsub (sortByProjectedDesc_pairwise roster)⟩

end AiAtl
